import Mathlib

/-!
Shallow embedding of the HTTP/1.1 client from the blog post
"Implementing fetch in node" (the final implementation block:
`parseContentLength`, `readResponse`, `fetch`).

Bytes are modelled as `Char` (the code decodes each chunk with
`data.toString('utf8')` and works character by character), streams as
`List Char`, and the event-driven `data` handler as a fold of a
per-character step function over the delivered characters.  JavaScript
numbers are idealized to `Nat` (all quantities involved are small
non-negative decimals).  An uncaught JavaScript exception (the `TypeError`
thrown by `rawHeaders.match(pattern).groups` when `match` returns `null`)
freezes the machine: no further handler runs.
-/

set_option maxRecDepth 40000

namespace HttpFetch

instance exceptDecEq {ε α : Type} [DecidableEq ε] [DecidableEq α] :
    DecidableEq (Except ε α) := fun a b =>
  match a, b with
  | Except.ok x, Except.ok y =>
    if h : x = y then isTrue (by rw [h]) else isFalse (by simp [h])
  | Except.error x, Except.error y =>
    if h : x = y then isTrue (by rw [h]) else isFalse (by simp [h])
  | Except.ok _, Except.error _ => isFalse (by simp)
  | Except.error _, Except.ok _ => isFalse (by simp)

/-- Error taxonomy: `typeError` is the untyped JavaScript `TypeError`; the
remaining constructors are the typed errors named by the design document
(none of which the code ever produces). -/
inductive HttpError where
  | typeError
  | malformedUrl
  | unsupportedScheme
  | resolutionFailed
  | connectionFailed
  | noContentLength
  | invalidContentLength
  | connectionClosedPrematurely
  | bodyAlreadyConsumed
deriving DecidableEq

/-- The digits `\d+` captured greedily from the front of a list. -/
def leadingDigits : List Char → List Char
  | [] => []
  | c :: cs => if c.isDigit then c :: leadingDigits cs else []

/-- Decimal value of a digit list, as computed by `Number(...)` on the
captured group (idealized to `Nat`). -/
def digitsToNat (ds : List Char) : Nat :=
  ds.foldl (fun n c => n * 10 + (c.toNat - 48)) 0

/-- The literal part of the pattern `/content-length: (?<contentLength>\d+)/i`. -/
def clKey : List Char := "content-length: ".toList

/-- Case-insensitive test that the second list starts with the first
(the `i` flag of the regexp). -/
def startsWithCI : List Char → List Char → Bool
  | [], _ => true
  | _ :: _, [] => false
  | k :: ks, c :: cs => (c.toLower == k.toLower) && startsWithCI ks cs

/-- First match of `/content-length: (?<contentLength>\d+)/i`: scan left to
right for the literal key followed by at least one digit, and return the
value of the greedy digit capture. `none` models a `null` match result. -/
def findCL : List Char → Option Nat
  | [] => none
  | c :: cs =>
    if startsWithCI clKey (c :: cs) then
      let ds := leadingDigits ((c :: cs).drop clKey.length)
      if ds.isEmpty then findCL cs else some (digitsToNat ds)
    else findCL cs

/-- Embeds `parseContentLength`:
`Number(rawHeaders.match(pattern).groups.contentLength)`.  When the match
is `null`, reading `.groups` throws an (untyped) `TypeError`. -/
def parseContentLength (rawHeaders : List Char) : Except HttpError Nat :=
  match findCL rawHeaders with
  | some n => Except.ok n
  | none => Except.error HttpError.typeError

/-- The mutable state of one `readResponse` invocation: the closure
variables `rawHeaders`, `contentLength`, `body`, `headersRead`, plus the
observable connection effects — `paused` (`connection.pause()` was
called), `ended` (`connection.end(...)` was called), the number of
`onHeaders` invocations, and the uncaught-exception flag. -/
structure ConnState where
  rawHeaders : List Char
  contentLength : Option Nat
  body : List Char
  headersRead : Bool
  paused : Bool
  ended : Bool
  onHeadersCount : Nat
  errored : Option HttpError
deriving DecidableEq

/-- State at the moment `connection.on('data', ...)` is registered. -/
def initState : ConnState :=
  { rawHeaders := [], contentLength := none, body := [], headersRead := false,
    paused := false, ended := false, onHeadersCount := 0, errored := none }

/-- One iteration of `for (let char of data.toString('utf8'))` in the
`data` handler of `readResponse`.  `previousChar` is
`rawHeaders.slice(-1)`, so the marker test
`` `${previousChar}${char}` === '\n\r' `` holds exactly when the last
accumulated header character is LF and the current character is CR.  On a
marker hit the code runs `parseContentLength` (which may throw), sets
`headersRead`, pauses the connection and invokes `onHeaders`; after the
headers, each character is appended to `body`, and when
`body.length === contentLength` the code calls `connection.end`. -/
def stepChar (s : ConnState) (c : Char) : ConnState :=
  if s.errored.isSome then s
  else if s.headersRead then
    let newBody := s.body ++ [c]
    if s.contentLength = some newBody.length then
      { s with body := newBody, ended := true }
    else
      { s with body := newBody }
  else if s.rawHeaders.getLast? = some '\n' ∧ c = '\r' then
    match parseContentLength s.rawHeaders with
    | Except.ok n =>
      { s with contentLength := some n, headersRead := true, paused := true,
               onHeadersCount := s.onHeadersCount + 1 }
    | Except.error e => { s with errored := some e }
  else
    { s with rawHeaders := s.rawHeaders ++ [c] }

/-- The whole `data` handler on one delivered chunk. -/
def onData (s : ConnState) (chunk : List Char) : ConnState :=
  chunk.foldl stepChar s

/-- Transport events: a data chunk, or the connection signalling closure.
`readResponse` registers a handler only for `data`. -/
inductive ConnEvent where
  | data (chunk : List Char)
  | close
deriving DecidableEq

/-- Event dispatch: `readResponse` installs no `close`/`end` handler, so a
closure event changes nothing. -/
def stepEvent (s : ConnState) (e : ConnEvent) : ConnState :=
  match e with
  | ConnEvent.data chunk => onData s chunk
  | ConnEvent.close => s

/-- Run the parser over one contiguous stream of characters. -/
def runStream (cs : List Char) : ConnState :=
  onData initState cs

/-- Run the parser over a sequence of delivered chunks. -/
def runChunks (chunks : List (List Char)) : ConnState :=
  chunks.foldl onData initState

/-- Run the parser over a sequence of transport events. -/
def runEvents (evs : List ConnEvent) : ConnState :=
  evs.foldl stepEvent initState

/-- The value the body promise resolves with: `connection.end(() =>
onBody(body))` invokes its callback after the connection finishes, at
which point the closure reads the current value of `body`; if `end` was
never called the promise stays pending. -/
def resolvedBody (s : ConnState) : Option (List Char) :=
  if s.ended then some s.body else none

/-- Concatenation of a chunk sequence into the underlying byte stream. -/
def flat : List (List Char) → List Char
  | [] => []
  | ch :: t => ch ++ flat t

/-- Spec-side predicate (from the claim's words, for comparison with the
code's behaviour): the stream contains the four-character sequence
CR LF CR LF. -/
def hasCRLFCRLF : List Char → Bool
  | '\r' :: '\n' :: '\r' :: '\n' :: _ => true
  | _ :: cs => hasCRLFCRLF cs
  | [] => false

/-- The parts of a WHATWG `URL` that `fetch` reads: `url.hostname`,
`url.port` (absent modelled as `none`), `url.pathname`. -/
structure ParsedUrl where
  scheme : List Char
  hostname : List Char
  port : Option Nat
  pathname : List Char
deriving DecidableEq

/-- Model of `new URL(urlString)` restricted to the
`scheme://host[:port][/path][?query][#fragment]` shapes this client
meets: failure (`none`) models the constructor throwing.  Note the scheme
is parsed but `fetch` never inspects it. -/
def urlParse (s : List Char) : Option ParsedUrl :=
  let scheme := s.takeWhile (fun c => c != ':')
  match s.drop scheme.length with
  | ':' :: '/' :: '/' :: r =>
    if scheme.isEmpty then none
    else
      let authority := r.takeWhile (fun c => c != '/' && c != '?' && c != '#')
      let after := r.drop authority.length
      let hostname := authority.takeWhile (fun c => c != ':')
      let portPart := authority.drop (hostname.length + 1)
      if hostname.isEmpty then none
      else if !(portPart.all fun c => c.isDigit) then none
      else
        let path := after.takeWhile (fun c => c != '?' && c != '#')
        some { scheme := scheme, hostname := hostname,
               port := if portPart.isEmpty then none
                       else some (digitsToNat portPart),
               pathname := if path.isEmpty then ['/'] else path }
  | _ => none

/-- Embeds the request construction in `fetch`:
`` `GET ${url.pathname} HTTP/1.1` + '\n' + `host: ${url.hostname}` + '\n\n' ``. -/
def encodeRequest (pathname hostname : List Char) : List Char :=
  "GET ".toList ++ pathname ++ " HTTP/1.1".toList ++ ['\n'] ++
    "host: ".toList ++ hostname ++ ['\n', '\n']

/-- Observable network activity of `fetch` before any response data. -/
inductive NetAction where
  | dnsLookup (hostname : List Char)
  | connect (port : Nat)
  | write (payload : List Char)
deriving DecidableEq

/-- Embeds the orchestration in `fetch`: `new URL(urlString)` (throws on a
malformed string), `dns.lookup(url.hostname)`,
`createConnection({port: url.port || 80, ...})`, then writing the encoded
request.  No step examines `url.protocol`. -/
def fetchActions (urlString : List Char) : Except HttpError (List NetAction) :=
  match urlParse urlString with
  | none => Except.error HttpError.typeError
  | some u =>
    Except.ok [NetAction.dnsLookup u.hostname,
               NetAction.connect (u.port.getD 80),
               NetAction.write (encodeRequest u.pathname u.hostname)]

/-! Helper lemmas: branch descriptions of `stepChar`, a reachable-state
invariant, and fold bookkeeping. -/

theorem stepChar_frozen (s : ConnState) (c : Char) (h : s.errored.isSome) :
    stepChar s c = s := by
  simp [stepChar, h]

theorem stepChar_body (s : ConnState) (c : Char) (he : s.errored = none)
    (hr : s.headersRead = true) :
    stepChar s c =
      if s.contentLength = some (s.body ++ [c]).length then
        { s with body := s.body ++ [c], ended := true }
      else
        { s with body := s.body ++ [c] } := by
  simp [stepChar, he, hr]

theorem stepChar_marker_ok (s : ConnState) (c : Char) (n : Nat)
    (he : s.errored = none) (hr : s.headersRead = false)
    (hl : s.rawHeaders.getLast? = some '\n') (hc : c = '\r')
    (hp : parseContentLength s.rawHeaders = Except.ok n) :
    stepChar s c =
      { s with contentLength := some n, headersRead := true, paused := true,
               onHeadersCount := s.onHeadersCount + 1 } := by
  simp [stepChar, he, hr, hl, hc, hp]

theorem stepChar_marker_err (s : ConnState) (c : Char) (e : HttpError)
    (he : s.errored = none) (hr : s.headersRead = false)
    (hl : s.rawHeaders.getLast? = some '\n') (hc : c = '\r')
    (hp : parseContentLength s.rawHeaders = Except.error e) :
    stepChar s c = { s with errored := some e } := by
  simp [stepChar, he, hr, hl, hc, hp]

theorem stepChar_collect (s : ConnState) (c : Char) (he : s.errored = none)
    (hr : s.headersRead = false)
    (hm : ¬(s.rawHeaders.getLast? = some '\n' ∧ c = '\r')) :
    stepChar s c = { s with rawHeaders := s.rawHeaders ++ [c] } := by
  simp [stepChar, he, hr, hm]

/-- Invariant of every reachable parser state: the headers callback fires
exactly when (and as often as) the header phase has finished; before that
the body machinery is untouched; an uncaught exception can only occur
during the header phase; and a zero content length never triggers
`connection.end`, because the completion test runs only after a body
character has been appended. -/
def Inv (s : ConnState) : Prop :=
  (s.onHeadersCount = if s.headersRead then 1 else 0) ∧
  (s.headersRead = false → s.body = [] ∧ s.contentLength = none ∧ s.ended = false) ∧
  (s.headersRead = true → s.errored = none) ∧
  (s.contentLength = some 0 → s.ended = false)

theorem inv_init : Inv initState := by
  refine ⟨rfl, fun _ => ⟨rfl, rfl, rfl⟩, fun h => ?_, fun h => ?_⟩
  · exact absurd h (by decide)
  · exact absurd h (by simp [initState])

theorem inv_step (s : ConnState) (c : Char) (h : Inv s) : Inv (stepChar s c) := by
  obtain ⟨h1, h2, h3, h4⟩ := h
  by_cases he : s.errored.isSome
  · rw [stepChar_frozen s c he]; exact ⟨h1, h2, h3, h4⟩
  · rw [Option.not_isSome_iff_eq_none] at he
    by_cases hr : s.headersRead
    · rw [stepChar_body s c he hr]
      by_cases hlen : s.contentLength = some (s.body ++ [c]).length
      · rw [if_pos hlen]
        refine ⟨by simpa [hr] using h1, by simp [hr], fun _ => he, fun h0 => ?_⟩
        · exfalso
          rw [hlen] at h0
          simp at h0
      · rw [if_neg hlen]
        refine ⟨by simpa [hr] using h1, by simp [hr], fun _ => he, fun h0 => ?_⟩
        · exact h4 h0
    · rw [Bool.not_eq_true] at hr
      by_cases hm : s.rawHeaders.getLast? = some '\n' ∧ c = '\r'
      · cases hp : parseContentLength s.rawHeaders with
        | ok n =>
          rw [stepChar_marker_ok s c n he hr hm.1 hm.2 hp]
          refine ⟨by simp [hr, h1], by simp, fun _ => he, fun _ => (h2 hr).2.2⟩
        | error e =>
          rw [stepChar_marker_err s c e he hr hm.1 hm.2 hp]
          refine ⟨by simp [hr, h1], fun _ => h2 hr, by simp [hr], fun h0 => h4 h0⟩
      · rw [stepChar_collect s c he hr hm]
        exact ⟨by simp [hr, h1], fun _ => h2 hr, by simp [hr], fun h0 => h4 h0⟩

theorem inv_foldl (cs : List Char) :
    ∀ s : ConnState, Inv s → Inv (cs.foldl stepChar s) := by
  induction cs with
  | nil => intro s h; exact h
  | cons c cs ih => intro s h; exact ih (stepChar s c) (inv_step s c h)

theorem inv_runStream (cs : List Char) : Inv (runStream cs) :=
  inv_foldl cs initState inv_init

/-- After the header phase, each further character only extends the body:
`headersRead`, `rawHeaders`, `contentLength`, the callback count and the
error flag are all left untouched. -/
theorem foldl_post (ds : List Char) :
    ∀ s : ConnState, Inv s → s.headersRead = true →
      (ds.foldl stepChar s).headersRead = true ∧
      (ds.foldl stepChar s).rawHeaders = s.rawHeaders ∧
      (ds.foldl stepChar s).body = s.body ++ ds ∧
      (ds.foldl stepChar s).onHeadersCount = s.onHeadersCount ∧
      (ds.foldl stepChar s).contentLength = s.contentLength := by
  induction ds with
  | nil => intro s _ hr; exact ⟨hr, rfl, by simp, rfl, rfl⟩
  | cons d ds ih =>
    intro s h hr
    have he : s.errored = none := h.2.2.1 hr
    have hstep := stepChar_body s d he hr
    have hinv : Inv (stepChar s d) := inv_step s d h
    by_cases hlen : s.contentLength = some (s.body ++ [d]).length
    · rw [if_pos hlen] at hstep
      have := ih (stepChar s d) hinv (by rw [hstep]; exact hr)
      rw [hstep] at this
      rw [List.foldl_cons, hstep]
      simpa using this
    · rw [if_neg hlen] at hstep
      have := ih (stepChar s d) hinv (by rw [hstep]; exact hr)
      rw [hstep] at this
      rw [List.foldl_cons, hstep]
      simpa using this

theorem runChunks_flat (chunks : List (List Char)) :
    ∀ s : ConnState, chunks.foldl onData s = (flat chunks).foldl stepChar s := by
  induction chunks with
  | nil => intro s; rfl
  | cons ch t ih =>
    intro s
    show t.foldl onData (onData s ch) = ((ch ++ flat t).foldl stepChar s)
    rw [List.foldl_append, ih]
    rfl

theorem runChunks_eq (chunks : List (List Char)) :
    runChunks chunks = runStream (flat chunks) :=
  runChunks_flat chunks initState

/-! Claim theorems. -/

/-- Claim C1 — the claim says the parser recognizes the end of the header
block at the first occurrence of CR LF CR LF and only then delivers the
headers-ready notification.  The code instead matches the two-character
marker LF CR (`bodyStartMarker = '\n\r'`): on the stream
`"HTTP/1.1 200 OK\r\ncontent-length: 0\r\n\r"`, which contains no
CR LF CR LF at all, the headers-ready callback has already fired. -/
theorem c1_header_end_eval :
    hasCRLFCRLF "HTTP/1.1 200 OK\r\ncontent-length: 0\r\n\r".toList = false ∧
    (runStream "HTTP/1.1 200 OK\r\ncontent-length: 0\r\n\r".toList).onHeadersCount = 1 ∧
    (runStream "HTTP/1.1 200 OK\r\ncontent-length: 0\r\n\r".toList).headersRead = true := by
  decide

/-- Claim C2 — the claim says the three-chunk scenario response with
`content-length: 13` resolves `text()` to `"Hello, world!"`.  Evaluating
the code on exactly those chunks: the final LF of the header terminator is
counted as the first body character, so `connection.end` fires after
`"\nHello, world"`, and by the time the end callback reads `body` the
trailing `'!'` has been appended as well — the body promise resolves to
`"\nHello, world!"`, not `"Hello, world!"`. -/
theorem c2_scenario_eval :
    (runChunks ["HTTP/1.1 200".toList, " OK\r\ncontent-length: 13\r\n\r\n".toList,
      "Hello, world!".toList]).contentLength = some 13 ∧
    resolvedBody (runChunks ["HTTP/1.1 200".toList,
      " OK\r\ncontent-length: 13\r\n\r\n".toList, "Hello, world!".toList]) =
      some "\nHello, world!".toList ∧
    "\nHello, world!".toList ≠ "Hello, world!".toList := by
  decide

/-- Claim C3: the parse result is invariant under re-chunking — any two
chunk partitions of the same byte stream drive the parser to the same
final state (in particular identical accumulated headers and parsed
content length), and the headers-ready callback fires exactly once when
the header phase completes (and never again). -/
theorem c3_rechunking_invariant :
    ∀ (chunksA chunksB : List (List Char)), flat chunksA = flat chunksB →
      runChunks chunksA = runChunks chunksB ∧
      (runChunks chunksA).onHeadersCount =
        (if (runChunks chunksA).headersRead then 1 else 0) := by
  intro c1 c2 h
  refine ⟨?_, ?_⟩
  · rw [runChunks_eq, runChunks_eq, h]
  · rw [runChunks_eq]
    exact (inv_runStream (flat c1)).1

/-- Witness for C3: a split inside the header terminator versus a single
chunk. -/
theorem c3_rechunking_witness :
    runChunks ["HTTP/1.1 200 OK\r\nconte".toList, "nt-length: 5\r".toList,
        "\n\r\nab".toList] =
      runChunks ["HTTP/1.1 200 OK\r\ncontent-length: 5\r\n\r\nab".toList] ∧
    (runChunks ["HTTP/1.1 200 OK\r\nconte".toList, "nt-length: 5\r".toList,
        "\n\r\nab".toList]).onHeadersCount =
      (if (runChunks ["HTTP/1.1 200 OK\r\nconte".toList, "nt-length: 5\r".toList,
        "\n\r\nab".toList]).headersRead then 1 else 0) :=
  c3_rechunking_invariant _ _ (by decide)

/-- Counterexample to claim C4: on a complete response declaring
`content-length: 0` the headers are recognized, yet the body promise is
not resolved — `connection.end` was never called. -/
theorem c4_counterexample :
    (runStream "HTTP/1.1 204 No Content\r\ncontent-length: 0\r\n\r\n".toList).headersRead
        = true ∧
    (runStream "HTTP/1.1 204 No Content\r\ncontent-length: 0\r\n\r\n".toList).contentLength
        = some 0 ∧
    resolvedBody
        (runStream "HTTP/1.1 204 No Content\r\ncontent-length: 0\r\n\r\n".toList)
        = none := by
  decide

/-- Claim C4 as amended: for a response declaring `content-length: 0` the
body promise never resolves, no matter how much further data arrives —
the completion test `body.length === contentLength` runs only after a
body character has been appended, and a non-empty body never has length
zero. -/
theorem c4_zero_length_never_resolves :
    ∀ cs : List Char, (runStream cs).contentLength = some 0 →
      resolvedBody (runStream cs) = none := by
  intro cs h
  have hI := inv_runStream cs
  simp [resolvedBody, hI.2.2.2 h]

/-- Witness for the amended C4. -/
theorem c4_zero_length_witness :
    (runStream "content-length: 0\n\rXYZ".toList).contentLength = some 0 ∧
    resolvedBody (runStream "content-length: 0\n\rXYZ".toList) = none :=
  ⟨by decide, c4_zero_length_never_resolves _ (by decide)⟩

/-- Counterexample to claim C5: `fetch("ftp://example.com")` does not fail
with `UnsupportedScheme` — it performs a DNS lookup of `example.com`,
connects to port 80, and writes a GET request. -/
theorem c5_counterexample :
    fetchActions "ftp://example.com".toList =
      Except.ok [NetAction.dnsLookup "example.com".toList, NetAction.connect 80,
        NetAction.write "GET / HTTP/1.1\nhost: example.com\n\n".toList] ∧
    fetchActions "ftp://example.com".toList ≠
      Except.error HttpError.unsupportedScheme := by
  decide

/-- Claim C5 as amended: `fetch` performs no scheme validation at all.
Its only failure is the URL constructor throwing (untyped) on a string it
cannot parse; every URL the constructor accepts — whatever its scheme —
proceeds to name resolution, a TCP connection, and the request write. -/
theorem c5_no_scheme_check :
    ∀ s : List Char,
      (∀ e, fetchActions s = Except.error e → e = HttpError.typeError) ∧
      (∀ u, urlParse s = some u →
        fetchActions s = Except.ok [NetAction.dnsLookup u.hostname,
          NetAction.connect (u.port.getD 80),
          NetAction.write (encodeRequest u.pathname u.hostname)]) := by
  intro s
  constructor
  · intro e h
    cases hu : urlParse s with
    | none =>
      simp only [fetchActions, hu] at h
      injection h with h'
      exact h'.symm
    | some u => simp [fetchActions, hu] at h
  · intro u hu
    simp [fetchActions, hu]

/-- Witness for the amended C5. -/
theorem c5_no_scheme_check_witness :
    HttpError.typeError = HttpError.typeError ∧
    fetchActions "ftp://example.com".toList =
      Except.ok [NetAction.dnsLookup "example.com".toList, NetAction.connect 80,
        NetAction.write (encodeRequest "/".toList "example.com".toList)] :=
  ⟨(c5_no_scheme_check "no-url-here".toList).1 HttpError.typeError (by decide),
   (c5_no_scheme_check "ftp://example.com".toList).2
     { scheme := "ftp".toList, hostname := "example.com".toList,
       port := none, pathname := "/".toList }
     (by decide)⟩

/-- Counterexample to claim C6: with `content-length` absent (and likewise
with a negative value, which the digit-only pattern cannot match), the
code throws the untyped `TypeError` from dereferencing a `null` match —
not `NoContentLength`, not `InvalidContentLength`. -/
theorem c6_counterexample :
    parseContentLength "HTTP/1.1 200 OK\r\n".toList =
        Except.error HttpError.typeError ∧
    HttpError.typeError ≠ HttpError.noContentLength ∧
    parseContentLength "HTTP/1.1 200 OK\r\ncontent-length: -5\r\n".toList =
        Except.error HttpError.typeError ∧
    HttpError.typeError ≠ HttpError.invalidContentLength := by
  decide

/-- Claim C6 as amended: `parseContentLength` either returns the first
`content-length: <digits>` value, or throws the untyped `TypeError`; the
typed errors `NoContentLength` and `InvalidContentLength` are never
produced. -/
theorem c6_untyped_errors_only :
    ∀ hs : List Char,
      parseContentLength hs = Except.error HttpError.typeError ∨
      ∃ n, parseContentLength hs = Except.ok n := by
  intro hs
  cases h : findCL hs with
  | none => left; rw [parseContentLength, h]
  | some n => right; exact ⟨n, by rw [parseContentLength, h]⟩

/-- Counterexample to claim C7: headers declare `content-length: 13`, only
three body bytes arrive, then the connection signals closure — yet the
final state carries no error and the body promise is unresolved: the body
future hangs instead of failing with `ConnectionClosedPrematurely`. -/
theorem c7_counterexample :
    (runEvents [ConnEvent.data "HTTP/1.1 200 OK\r\ncontent-length: 13\r\n\r\n".toList,
        ConnEvent.data "Hel".toList, ConnEvent.close]).headersRead = true ∧
    (runEvents [ConnEvent.data "HTTP/1.1 200 OK\r\ncontent-length: 13\r\n\r\n".toList,
        ConnEvent.data "Hel".toList, ConnEvent.close]).contentLength = some 13 ∧
    resolvedBody (runEvents
        [ConnEvent.data "HTTP/1.1 200 OK\r\ncontent-length: 13\r\n\r\n".toList,
         ConnEvent.data "Hel".toList, ConnEvent.close]) = none ∧
    (runEvents [ConnEvent.data "HTTP/1.1 200 OK\r\ncontent-length: 13\r\n\r\n".toList,
        ConnEvent.data "Hel".toList, ConnEvent.close]).errored = none := by
  decide

/-- Claim C7 as amended: `readResponse` registers no handler for
connection closure, so a closure event leaves the parser state completely
unchanged — a short body neither resolves nor rejects the body promise. -/
theorem c7_close_ignored :
    ∀ evs : List ConnEvent,
      runEvents (evs ++ [ConnEvent.close]) = runEvents evs := by
  intro evs
  rw [runEvents, List.foldl_append]
  rfl

/-- Counterexample to claim C8: a single delivered chunk carries the
header terminator followed by `"ab"`.  Before the caller could possibly
request the body, the handler has already pushed three characters into
the body buffer (the terminator's final LF plus `"ab"`), even though the
transport was paused at the marker. -/
theorem c8_counterexample :
    (runChunks ["HTTP/1.1 200 OK\r\ncontent-length: 5\r\n\r\nab".toList]).paused
        = true ∧
    (runChunks ["HTTP/1.1 200 OK\r\ncontent-length: 5\r\n\r\nab".toList]).headersRead
        = true ∧
    (runChunks ["HTTP/1.1 200 OK\r\ncontent-length: 5\r\n\r\nab".toList]).body
        = "\nab".toList ∧
    "\nab".toList ≠ ([] : List Char) := by
  decide

/-- Claim C8 as amended: the parser does set `paused` the moment the
terminator is matched, but the `for` loop over the current chunk keeps
running regardless of the pause (and regardless of whether the body was
requested): every character processed after the header phase is appended
to the body buffer, with `connection.end` fired as soon as the declared
length is hit. -/
theorem c8_pause_same_chunk :
    ∀ (s : ConnState) (c : Char),
      (s.errored = none → s.headersRead = true →
        (stepChar s c).body = s.body ++ [c] ∧ (stepChar s c).paused = s.paused ∧
        (stepChar s c).ended =
          (if s.contentLength = some (s.body ++ [c]).length then true else s.ended)) ∧
      (∀ n, s.errored = none → s.headersRead = false →
        s.rawHeaders.getLast? = some '\n' → c = '\r' →
        parseContentLength s.rawHeaders = Except.ok n →
        (stepChar s c).paused = true ∧ (stepChar s c).headersRead = true ∧
        (stepChar s c).body = s.body) := by
  intro s c
  constructor
  · intro he hr
    rw [stepChar_body s c he hr]
    by_cases hlen : s.contentLength = some (s.body ++ [c]).length
    · have hlen' : s.contentLength = some (s.body.length + 1) := by simpa using hlen
      simp [hlen']
    · have hlen' : ¬s.contentLength = some (s.body.length + 1) := by simpa using hlen
      simp [hlen']
  · intro n he hr hl hc hp
    rw [stepChar_marker_ok s c n he hr hl hc hp]
    exact ⟨rfl, rfl, rfl⟩

/-- A state in the body phase, used to witness the amended C8. -/
def c8BodyState : ConnState :=
  { rawHeaders := "HTTP/1.1 200 OK\r\ncontent-length: 5\r\n".toList,
    contentLength := some 5, body := "\na".toList, headersRead := true,
    paused := true, ended := false, onHeadersCount := 1, errored := none }

/-- A state one character before the terminator match, used to witness the
amended C8. -/
def c8MarkerState : ConnState :=
  { rawHeaders := "HTTP/1.1 200 OK\r\ncontent-length: 5\r\n".toList,
    contentLength := none, body := [], headersRead := false,
    paused := false, ended := false, onHeadersCount := 0, errored := none }

/-- Witness for the amended C8. -/
theorem c8_pause_same_chunk_witness :
    ((stepChar c8BodyState 'b').body = c8BodyState.body ++ ['b'] ∧
      (stepChar c8BodyState 'b').paused = c8BodyState.paused ∧
      (stepChar c8BodyState 'b').ended =
        (if c8BodyState.contentLength = some (c8BodyState.body ++ ['b']).length
         then true else c8BodyState.ended)) ∧
    ((stepChar c8MarkerState '\r').paused = true ∧
      (stepChar c8MarkerState '\r').headersRead = true ∧
      (stepChar c8MarkerState '\r').body = c8MarkerState.body) :=
  ⟨(c8_pause_same_chunk c8BodyState 'b').1 rfl rfl,
   (c8_pause_same_chunk c8MarkerState '\r').2 5 rfl rfl (by decide) rfl (by decide)⟩

/-- Counterexample to claim C9: the request `fetch` writes for
`http://example.com` is LF-delimited — it contains no CR at all, so its
lines are not CRLF-terminated. -/
theorem c9_counterexample :
    fetchActions "http://example.com".toList =
      Except.ok [NetAction.dnsLookup "example.com".toList, NetAction.connect 80,
        NetAction.write "GET / HTTP/1.1\nhost: example.com\n\n".toList] ∧
    '\r' ∉ "GET / HTTP/1.1\nhost: example.com\n\n".toList := by
  decide

/-- Claim C9 as amended: the encoded request is the request line, a host
header and a blank line, each terminated by a bare LF — the encoder emits
exactly three LFs beyond those in the caller-supplied parts and never
introduces a CR. -/
theorem c9_lf_only_request :
    ∀ (p h : List Char),
      ('\r' ∈ encodeRequest p h → '\r' ∈ p ∨ '\r' ∈ h) ∧
      (encodeRequest p h).count '\n' = p.count '\n' + h.count '\n' + 3 := by
  intro p h
  constructor
  · intro hm
    rw [encodeRequest] at hm
    rcases List.mem_append.mp hm with h1 | h1
    · rcases List.mem_append.mp h1 with h2 | h2
      · rcases List.mem_append.mp h2 with h3 | h3
        · rcases List.mem_append.mp h3 with h4 | h4
          · rcases List.mem_append.mp h4 with h5 | h5
            · rcases List.mem_append.mp h5 with h6 | h6
              · exact absurd h6 (by decide)
              · exact Or.inl h6
            · exact absurd h5 (by decide)
          · exact absurd h4 (by decide)
        · exact absurd h3 (by decide)
      · exact Or.inr h2
    · exact absurd h1 (by decide)
  · have hA : "GET ".toList.count '\n' = 0 := by decide
    have hB : " HTTP/1.1".toList.count '\n' = 0 := by decide
    have hC : (['\n'] : List Char).count '\n' = 1 := by decide
    have hD : "host: ".toList.count '\n' = 0 := by decide
    have hE : (['\n', '\n'] : List Char).count '\n' = 2 := by decide
    rw [encodeRequest]
    simp only [List.count_append, hA, hB, hC, hD, hE]
    omega

/-- Witness for the amended C9. -/
theorem c9_lf_only_request_witness :
    ('\r' ∈ (['\r'] : List Char) ∨ '\r' ∈ (['x'] : List Char)) ∧
    (encodeRequest ['a'] ['b']).count '\n' =
      (['a'] : List Char).count '\n' + (['b'] : List Char).count '\n' + 3 :=
  ⟨(c9_lf_only_request ['\r'] ['x']).1 (by decide),
   (c9_lf_only_request ['a'] ['b']).2⟩

/-- Claim C10: once the header terminator has been recognized the
`headersRead` flag stays set for the rest of the connection, the raw
header buffer is never touched again, every subsequent character is
appended to the body buffer, and the headers-ready callback has fired
exactly once and never fires again. -/
theorem c10_headers_read_monotone :
    ∀ (cs ds : List Char), (runStream cs).headersRead = true →
      (runStream (cs ++ ds)).headersRead = true ∧
      (runStream (cs ++ ds)).rawHeaders = (runStream cs).rawHeaders ∧
      (runStream (cs ++ ds)).body = (runStream cs).body ++ ds ∧
      (runStream (cs ++ ds)).onHeadersCount = 1 ∧
      (runStream cs).onHeadersCount = 1 := by
  intro cs ds h
  have hI := inv_runStream cs
  have hrun : runStream (cs ++ ds) = ds.foldl stepChar (runStream cs) := by
    rw [runStream, runStream, onData, onData, List.foldl_append]
  have hp := foldl_post ds (runStream cs) hI h
  have hc : (runStream cs).onHeadersCount = 1 := by simp [hI.1, h]
  rw [hrun]
  exact ⟨hp.1, hp.2.1, hp.2.2.1, by rw [hp.2.2.2.1, hc], hc⟩

/-- Witness for C10. -/
theorem c10_headers_read_witness :
    (runStream "content-length: 7\n\r".toList).headersRead = true ∧
    ((runStream ("content-length: 7\n\r".toList ++ "abc".toList)).headersRead = true ∧
     (runStream ("content-length: 7\n\r".toList ++ "abc".toList)).rawHeaders =
       (runStream "content-length: 7\n\r".toList).rawHeaders ∧
     (runStream ("content-length: 7\n\r".toList ++ "abc".toList)).body =
       (runStream "content-length: 7\n\r".toList).body ++ "abc".toList ∧
     (runStream ("content-length: 7\n\r".toList ++ "abc".toList)).onHeadersCount = 1 ∧
     (runStream "content-length: 7\n\r".toList).onHeadersCount = 1) :=
  ⟨by decide, c10_headers_read_monotone _ _ (by decide)⟩

end HttpFetch
